import Mathlib

/-!
Shallow embedding of the bestbuy-2.0 store core (products.py, promotions.py,
store.py) and proofs about it.

Modelling conventions:
* Python floats are modelled by the rationals `ℚ` (every price and percentage
  that appears in the development is exactly representable).
* Python ints are modelled by `Int`; list indices by `Nat`.
* A Python method that can `raise` is modelled as returning
  `Except Err result`; when the method also mutates `self`, it returns the
  post-state of the object explicitly.  Every `raise` in the source occurs
  before any field assignment of the same call, so an error return always
  carries the unchanged object.
-/

namespace BestBuy

/-- The error kinds raised by the source: `ValueError` (carrying its message),
`OutOfStockValueError(name, quantity)` and `MaximumValueError(name, maximum)`
from products.py.  Messages are kept without quote characters. -/
inductive Err where
  | invalidValue (msg : String)
  | outOfStock (name : String) (quantity : Int)
  | maximumExceeded (name : String) (maximum : Int)
  deriving Repr, DecidableEq

/-- The closed set of promotion strategies of promotions.py, as data:
`SecondHalfPrice(name)`, `ThirdOneFree(name)` and
`PercentDiscount(name, percent)`. -/
inductive Promotion where
  | secondHalfPrice (name : String)
  | thirdOneFree (name : String)
  | percentDiscount (name : String) (percent : ℚ)
  deriving Repr, DecidableEq

/-- `PercentDiscount.__init__`: `Promotion.__init__` first rejects an empty
name, then the percent is rejected when `float(percent) <= 0.00`. -/
def mkPercentDiscount (name : String) (percent : ℚ) : Except Err Promotion :=
  if name.length = 0 then
    .error (.invalidValue "argument name is an empty string.")
  else if percent ≤ 0 then
    .error (.invalidValue "argument percent is negative or zero.")
  else
    .ok (.percentDiscount name percent)

/-- Variant tag distinguishing the three product classes of products.py:
`Product`, `NonStockedProduct`, `LimitedProduct(maximum)`. -/
inductive Variant where
  | standard
  | nonStocked
  | limited (maximum : Int)
  deriving Repr, DecidableEq

/-- The fields of a `Product` object: `_name`, `_price`, `_quantity`,
`_active`, `_promotion`, plus the class tag. -/
structure Product where
  name : String
  price : ℚ
  quantity : Int
  active : Bool
  promotion : Option Promotion
  variant : Variant
  deriving Repr, DecidableEq

/-- `Promotion.apply_promotion` of each concrete strategy.  Only
`product.price` is read from the product.

* `SecondHalfPrice.apply_promotion` computes
  `half_qty = quantity - int(quantity // 2)`, `half_price = product.price / 2`,
  `total_price = half_qty * half_price` and then the line
  `+(half_qty * product.price)` — a bare unary-plus expression statement with
  no effect (not a continuation of the previous assignment) — so the value
  returned is `half_qty * half_price` alone.
* `ThirdOneFree.apply_promotion` returns
  `(quantity - int(quantity // 3)) * product.price`.
* `PercentDiscount.apply_promotion` sets `discount_price = product.price`,
  then the line `-(product.price * (self.percent * 0.01))` is again a bare
  expression statement with no effect, and `discount_price * quantity` is
  returned, so the percent field is never used.

Python `//` is floor division, hence `Int.fdiv`. -/
def applyPromotion (promo : Promotion) (product : Product) (quantity : Int) : ℚ :=
  match promo with
  | .secondHalfPrice _ =>
      ((quantity - Int.fdiv quantity 2 : Int) : ℚ) * (product.price / 2)
  | .thirdOneFree _ =>
      ((quantity - Int.fdiv quantity 3 : Int) : ℚ) * product.price
  | .percentDiscount _ _ =>
      product.price * (quantity : ℚ)

/-- The message of the `ValueError` raised by every `buy` method for a
non-positive quantity (quote characters dropped). -/
def invalidBuyMsg : String := "argument quantity must be >= 1 to buy a product"

/-- The `quantity` property setter.  For the two stock-tracked classes
(`Product.quantity.setter`): raise `ValueError` when the value is negative,
call `deactivate()` when it is `< 1`, then store it.  `NonStockedProduct`
overrides the setter with `pass`: nothing happens and nothing is raised. -/
def setQuantity (p : Product) (n : Int) : Except Err Product :=
  match p.variant with
  | .nonStocked => .ok p
  | _ =>
      if n < 0 then .error (.invalidValue "argument quantity is negative.")
      else .ok { p with quantity := n, active := if n < 1 then false else p.active }

/-- `Product.__init__`: `activate()` first, then the `name`, `price` and
`quantity` validations in order, then `self.quantity = int(quantity)` through
the setter (which deactivates again when the quantity is `< 1`), and
`promotion = None`. -/
def mkProduct (name : String) (price : ℚ) (quantity : Int) : Except Err Product :=
  if name.length = 0 then
    .error (.invalidValue "argument name is an empty string.")
  else if price < 0 then
    .error (.invalidValue "argument price is negative.")
  else if quantity < 0 then
    .error (.invalidValue "argument quantity is negative.")
  else
    .ok { name := name, price := price, quantity := quantity,
          active := if quantity < 1 then false else true,
          promotion := none, variant := Variant.standard }

/-- `LimitedProduct.__init__`: `super().__init__` first, then reject
`int(maximum) < 1`, then store the maximum (modelled by the variant tag). -/
def mkLimitedProduct (name : String) (price : ℚ) (quantity maximum : Int) :
    Except Err Product :=
  match mkProduct name price quantity with
  | .error e => .error e
  | .ok p =>
      if maximum < 1 then .error (.invalidValue "argument maximum must be >= 1.")
      else .ok { p with variant := Variant.limited maximum }

/-- The tail every `buy` method shares: consult `self.promotion` if present,
else return `float(quantity) * self.price`.  In the source this runs after the
stock decrement, so `p` is the already-mutated product (its price is
unchanged by the mutation). -/
def lineTotal (p : Product) (quantity : Int) : ℚ :=
  match p.promotion with
  | some promo => applyPromotion promo p quantity
  | none => (quantity : ℚ) * p.price

/-- The `buy` methods, dispatched on the class tag.  The result pairs the
`Except` outcome with the post-state of the product; every `raise` occurs
before the stock decrement, so error outcomes carry the product unchanged.

* `Product.buy`: raise `ValueError` for `quantity <= 0`; raise
  `OutOfStockValueError` when `self.quantity - quantity < 0`; otherwise
  `self.quantity -= quantity` through the setter (deactivating when the new
  stock is `< 1`), then price the line via `lineTotal`.
* `NonStockedProduct.buy`: only the `quantity <= 0` check; no stock mutation.
* `LimitedProduct.buy`: `quantity <= 0` check, then raise
  `MaximumValueError` when `self.maximum < quantity`, then the stock check
  and decrement exactly as in `Product.buy`. -/
def buy (p : Product) (quantity : Int) : Except Err ℚ × Product :=
  match p.variant with
  | .standard =>
      if quantity ≤ 0 then (.error (.invalidValue invalidBuyMsg), p)
      else if p.quantity - quantity < 0 then (.error (.outOfStock p.name quantity), p)
      else
        let p2 : Product :=
          { p with quantity := p.quantity - quantity,
                   active := if p.quantity - quantity < 1 then false else p.active }
        (.ok (lineTotal p2 quantity), p2)
  | .nonStocked =>
      if quantity ≤ 0 then (.error (.invalidValue invalidBuyMsg), p)
      else (.ok (lineTotal p quantity), p)
  | .limited maximum =>
      if quantity ≤ 0 then (.error (.invalidValue invalidBuyMsg), p)
      else if maximum < quantity then (.error (.maximumExceeded p.name maximum), p)
      else if p.quantity - quantity < 0 then (.error (.outOfStock p.name quantity), p)
      else
        let p2 : Product :=
          { p with quantity := p.quantity - quantity,
                   active := if p.quantity - quantity < 1 then false else p.active }
        (.ok (lineTotal p2 quantity), p2)

/-- Placeholder product used only to make list indexing total; every theorem
below constrains indices to be in range, so it is never actually read. -/
def dummyProduct : Product :=
  { name := "-", price := 0, quantity := 0, active := false,
    promotion := none, variant := Variant.standard }

/-- One order line of `Store.order`: the shopping list holds pairs
`(product, quantity)`.  The store state is modelled as the list of product
objects (the heap), and a line refers to its product by position in that
list, so that a mutation made by one line is seen by later lines naming the
same product. -/
abbrev Line := Nat × Int

/-- The loop body of `Store.order` (state-passing form of the Python loop):
`total_price` starts at `0.00`; each line calls `product.buy(quantity)`;
`OutOfStockValueError` and `MaximumValueError` are caught (the message is
printed) and the loop continues; any other exception — in particular the
`ValueError` for a non-positive quantity — propagates out of `order`,
aborting the call. -/
def orderGo (heap : List Product) (total : ℚ) : List Line → Except Err ℚ × List Product
  | [] => (.ok total, heap)
  | (i, q) :: rest =>
      match buy (heap.getD i dummyProduct) q with
      | (.ok t, p2) => orderGo (heap.set i p2) (total + t) rest
      | (.error (.outOfStock _ _), _) => orderGo heap total rest
      | (.error (.maximumExceeded _ _), _) => orderGo heap total rest
      | (.error (.invalidValue m), _) => (.error (.invalidValue m), heap)

/-- `Store.order(shopping_list)` over a heap of products. -/
def order (heap : List Product) (lines : List Line) : Except Err ℚ × List Product :=
  orderGo heap 0 lines

/-- Per-line settlement as the specification describes it (used to state the
partial-failure claim about `order`): a successful line contributes the line
total returned by `buy` and updates the heap; a failing line contributes
nothing and leaves the heap — in particular the stock of that product — unchanged.
Returns the final heap and the list of the successful line totals, in order. -/
def settleTraceSpec (heap : List Product) : List Line → List Product × List ℚ
  | [] => (heap, [])
  | (i, q) :: rest =>
      match buy (heap.getD i dummyProduct) q with
      | (.ok t, p2) =>
          let r := settleTraceSpec (heap.set i p2) rest
          (r.1, t :: r.2)
      | (.error _, _) => settleTraceSpec heap rest

/-- The loop of `Store.remove_product`.  Python iterates over the list while
popping from it: the iterator keeps an internal position, fetching
`list[pos]` and advancing `pos` each round, and the `index` counter of the loop
equals that position (both advance once per round).  On a name match the
element at the fetched position is popped, so the element that slides into
that position is skipped when the iterator advances. -/
def removeLoop (ps : List Product) (i : Nat) (name : String) : List Product :=
  if h : i < ps.length then
    if (ps.get ⟨i, h⟩).name = name then removeLoop (ps.eraseIdx i) (i + 1) name
    else removeLoop ps (i + 1) name
  else ps
termination_by ps.length - i
decreasing_by
  · have hlen : (ps.eraseIdx i).length = ps.length - 1 := by
      simp [List.length_eraseIdx, h]
    omega
  · omega

/-- `Store.remove_product(product)`: run the loop from position 0, matching
entries whose `name` equals `product.name` (the `isinstance` guard always
passes for a `Product` argument). -/
def remove_product (ps : List Product) (target : Product) : List Product :=
  removeLoop ps 0 target.name

/-- `Store.__contains__(product)`: scans the list and returns `True` on the
first name match; falling off the loop returns `None`, which is falsy, so the
operator behaves as this boolean. -/
def containsName (ps : List Product) (name : String) : Bool :=
  ps.any (fun p => p.name = name)

/-- The loop of `Store.__add__`.  `Store.__init__` stores the argument list
object itself, so `new_store = Store(self._products)` makes the new store and
the left operand share one underlying list; `acc` is the current contents of
that shared list.  Each product of the right store is appended to it via
`add_product` when its name is not yet present, and otherwise a `ValueError`
(duplicate product) aborts the merge, leaving the shared list as accumulated
so far.  The first component of the result is the final contents of the shared
list — the products of the left store after the call and, on
success, also the products of the returned new store. -/
def storeAddGo (acc : List Product) : List Product → List Product × Option Err
  | [] => (acc, none)
  | p :: rest =>
      if containsName acc p.name then
        (acc, some (.invalidValue "The product already exists."))
      else storeAddGo (acc ++ [p]) rest

/-- `Store.__add__(other)` over the two product lists. -/
def store_add (left right : List Product) : List Product × Option Err :=
  storeAddGo left right

/-- An operation on a single product used to state the active/stock
invariant: a write through the `quantity` setter, or a `buy` call. -/
inductive Op where
  | setQ (n : Int)
  | buyOp (q : Int)
  deriving Repr, DecidableEq

/-- Run one operation; an operation that raises leaves the product as it was
(every `raise` in the setter and in `buy` happens before any field
assignment). -/
def runOp (p : Product) : Op → Product
  | .setQ n =>
      match setQuantity p n with
      | .ok p2 => p2
      | .error _ => p
  | .buyOp q => (buy p q).2

/-- Run a sequence of operations in order. -/
def runOps (p : Product) (ops : List Op) : Product :=
  ops.foldl runOp p

/-! Concrete products used as inputs of witnesses and counterexamples. -/

/-- A standard product with unit price 10. -/
def pTen : Product :=
  { name := "Widget", price := 10, quantity := 100, active := true,
    promotion := none, variant := Variant.standard }

/-- A non-stocked product with unit price 100. -/
def pHundred : Product :=
  { name := "License", price := 100, quantity := 0, active := true,
    promotion := none, variant := Variant.nonStocked }

/-- A standard product named A. -/
def pA : Product :=
  { name := "A", price := 1, quantity := 1, active := true,
    promotion := none, variant := Variant.standard }

/-- A standard product named B. -/
def pB : Product :=
  { name := "B", price := 2, quantity := 1, active := true,
    promotion := none, variant := Variant.standard }

/-- The standard product of test_product.py. -/
def pAMD : Product :=
  { name := "AMD Ryzen 57000X", price := 150, quantity := 5, active := true,
    promotion := none, variant := Variant.standard }

/-- The quantity-limited product of main.py (maximum 1 per order). -/
def shippingEx : Product :=
  { name := "Shipping", price := 10, quantity := 250, active := true,
    promotion := none, variant := Variant.limited 1 }

/-- A small heap for the order witnesses. -/
def pOne : Product :=
  { name := "One", price := 2, quantity := 5, active := true,
    promotion := none, variant := Variant.standard }

/-- Second product of the small heap, with stock 1. -/
def pTwo : Product :=
  { name := "Two", price := 3, quantity := 1, active := true,
    promotion := none, variant := Variant.standard }

/-- C1: the claim states that the half-price-second-unit promotion returns
`(q - floor(q/2)) * p + floor(q/2) * (p/2)`, in particular 25 at price 10 and
quantity 3.  The source computes `half_qty * half_price` only — the line
`+(half_qty * product.price)` is an expression statement with no effect — so
`apply_promotion` returns `(3 - 1) * (10 / 2) = 10`, not 25. -/
theorem secondHalfPrice_apply_ten_three :
    applyPromotion (Promotion.secondHalfPrice "Second Half price!") pTen 3 = 10 ∧
    (10 : ℚ) ≠ 25 := by
  constructor
  · norm_num [applyPromotion, pTen, Int.fdiv]
  · norm_num

/-- C2: the claim states that a percent-off promotion with percent 30 returns
`q * p * (1 - 30/100)`, in particular 140 at price 100 and quantity 2.  The
source sets `discount_price = product.price` and the line
`-(product.price * (self.percent * 0.01))` is an expression statement with no
effect, so `apply_promotion` returns `100 * 2 = 200`, not 140. -/
theorem percentDiscount_apply_hundred_two :
    (mkPercentDiscount "30% Off!" 30).map
      (fun promo => applyPromotion promo pHundred 2) = .ok 200 ∧
    (200 : ℚ) ≠ 140 := by
  constructor
  · have h : ("30% Off!".length = 0) = False := by decide
    norm_num [mkPercentDiscount, applyPromotion, pHundred, Except.map, h]
  · norm_num

/-- C5: on a standard product with no promotion, a purchase of `q` with
`1 ≤ q ≤ stock` succeeds, returns `q * price`, and leaves the stock at
`stock - q` (deactivating exactly when the remaining stock is below 1). -/
theorem standard_buy_success (p : Product) (q : Int)
    (hv : p.variant = Variant.standard) (hp : p.promotion = none)
    (h1 : 1 ≤ q) (h2 : q ≤ p.quantity) :
    buy p q = (.ok ((q : ℚ) * p.price),
      { p with quantity := p.quantity - q,
               active := if p.quantity - q < 1 then false else p.active }) := by
  have hq : ¬ (q ≤ 0) := by omega
  have hs : ¬ (p.quantity - q < 0) := by omega
  simp [buy, hv, hq, hs, lineTotal, hp]

/-- Witness for C5: buying 2 of the stock-5, price-150 product succeeds with
total 300 and stock 3. -/
theorem standard_buy_success_witness :
    pAMD.variant = Variant.standard ∧ pAMD.promotion = none ∧
    (1 : Int) ≤ 2 ∧ (2 : Int) ≤ pAMD.quantity ∧
    buy pAMD 2 = (.ok ((2 : ℚ) * pAMD.price),
      { pAMD with quantity := pAMD.quantity - 2,
                  active := if pAMD.quantity - 2 < 1 then false else pAMD.active }) :=
  ⟨rfl, rfl, by norm_num, by decide,
    standard_buy_success pAMD 2 rfl rfl (by norm_num) (by decide)⟩

/-- C6: on a standard product, a purchase of more than the available stock
fails with the insufficient-stock error, and the product — stock and active
flag alike — is returned unchanged (the raise precedes every mutation). -/
theorem standard_buy_insufficient_stock (p : Product) (q : Int)
    (hv : p.variant = Variant.standard)
    (h0 : 0 ≤ p.quantity) (h : p.quantity < q) :
    buy p q = (.error (.outOfStock p.name q), p) := by
  have hq : ¬ (q ≤ 0) := by omega
  have hs : p.quantity - q < 0 := by omega
  simp [buy, hv, hq, hs]

/-- Witness for C6: buying 7 of the stock-5 product fails with the
insufficient-stock error and leaves the product unchanged. -/
theorem standard_buy_insufficient_stock_witness :
    pAMD.variant = Variant.standard ∧ (0 : Int) ≤ pAMD.quantity ∧
    pAMD.quantity < 7 ∧
    buy pAMD 7 = (.error (.outOfStock pAMD.name 7), pAMD) :=
  ⟨rfl, by decide, by decide,
    standard_buy_insufficient_stock pAMD 7 rfl (by decide) (by decide)⟩

/-- C7: on a quantity-limited product the checks run in the order
invalid-quantity, then maximum-exceeded, then insufficient-stock: a
non-positive quantity raises the invalid-quantity error; otherwise a quantity
above the maximum raises the maximum-exceeded error with no regard to the
available stock; otherwise a quantity above the stock raises the
insufficient-stock error.  Every failure returns the product unchanged. -/
theorem limited_buy_check_order (p : Product) (q m : Int)
    (hv : p.variant = Variant.limited m) :
    (q ≤ 0 → buy p q = (.error (.invalidValue invalidBuyMsg), p)) ∧
    (0 < q → m < q → buy p q = (.error (.maximumExceeded p.name m), p)) ∧
    (0 < q → q ≤ m → p.quantity < q →
      buy p q = (.error (.outOfStock p.name q), p)) := by
  refine ⟨fun h => ?_, fun h1 h2 => ?_, fun h1 h2 h3 => ?_⟩
  · simp [buy, hv, h]
  · have hq : ¬ (q ≤ 0) := by omega
    simp [buy, hv, hq, h2]
  · have hq : ¬ (q ≤ 0) := by omega
    have hm : ¬ (m < q) := by omega
    have hs : p.quantity - q < 0 := by omega
    simp [buy, hv, hq, hm, hs]

/-- Witness for C7: with maximum 1 and stock 250, buying 2 fails with the
maximum-exceeded error even though the stock suffices. -/
theorem limited_buy_check_order_witness :
    shippingEx.variant = Variant.limited 1 ∧
    buy shippingEx 2 = (.error (.maximumExceeded shippingEx.name 1), shippingEx) :=
  ⟨rfl, (limited_buy_check_order shippingEx 2 1 rfl).2.1 (by norm_num) (by norm_num)⟩

/-- Every `buy` method raises the invalid-quantity `ValueError` for a
non-positive quantity, before touching any state. -/
lemma buy_nonpos (p : Product) (q : Int) (h : q ≤ 0) :
    buy p q = (.error (.invalidValue invalidBuyMsg), p) := by
  rcases hv : p.variant with _ | _ | m <;> simp [buy, hv, h]

/-- Conversely, a `buy` call can only raise a `ValueError` when the requested
quantity is non-positive (the other raises are the stock and maximum
errors). -/
lemma buy_invalid_imp (p : Product) (q : Int) (m : String) (r : Product)
    (h : buy p q = (.error (.invalidValue m), r)) : q ≤ 0 := by
  by_contra hq
  rcases hv : p.variant with _ | _ | mx <;>
    simp [buy, hv, hq] at h <;> split_ifs at h <;> simp_all

/-- The order loop, related to the per-line settlement description: when no
line requests a non-positive quantity, the loop never aborts, its final heap
is the per-line heap, and its total is the starting total plus the sum of the
totals of the successful lines. -/
lemma orderGo_spec (lines : List Line) : ∀ heap total,
    (∀ l ∈ lines, 1 ≤ l.2) →
    orderGo heap total lines =
      (.ok (total + ((settleTraceSpec heap lines).2).sum),
        (settleTraceSpec heap lines).1) := by
  induction lines with
  | nil => intro heap total _; simp [orderGo, settleTraceSpec]
  | cons l rest ih =>
      intro heap total h
      obtain ⟨i, q⟩ := l
      have hq : 1 ≤ q := h (i, q) (by simp)
      have hrest : ∀ l ∈ rest, 1 ≤ l.2 := fun l hl => h l (by simp [hl])
      rcases hbuy : buy (heap.getD i dummyProduct) q with ⟨res, p2⟩
      cases res with
      | ok t =>
          simp only [orderGo, settleTraceSpec]
          rw [hbuy]
          simp [ih _ _ hrest, add_assoc]
      | error e =>
          cases e with
          | invalidValue m =>
              exact absurd (buy_invalid_imp _ _ _ _ hbuy) (by omega)
          | outOfStock a b =>
              simp only [orderGo, settleTraceSpec]
              rw [hbuy]
              simp [ih _ _ hrest]
          | maximumExceeded a b =>
              simp only [orderGo, settleTraceSpec]
              rw [hbuy]
              simp [ih _ _ hrest]

/-- C3: settling an order whose lines all request a positive quantity
processes the lines in list order and never aborts; a line whose `buy` fails
with the insufficient-stock or maximum-exceeded error contributes nothing to
the total and leaves the heap — in particular the stock of the product of
that line — unchanged, and the returned total is exactly the sum of the line
totals of the successful lines (`settleTraceSpec` collects the per-line
outcomes the claim describes, using the same `buy`). -/
theorem order_partial_failure (heap : List Product) (lines : List Line)
    (h : ∀ l ∈ lines, 1 ≤ l.2) :
    order heap lines =
      (.ok (((settleTraceSpec heap lines).2).sum),
        (settleTraceSpec heap lines).1) := by
  simpa [order] using orderGo_spec lines heap 0 h

/-- Witness for C3: a three-line order on the heap `[pOne, pTwo]` where the
middle line exceeds the stock of `pTwo`; the total is the sum of the first
and third line totals and the stock of `pTwo` is untouched. -/
theorem order_partial_failure_witness :
    (∀ l ∈ [((0 : Nat), (2 : Int)), (1, 5), (0, 1)], 1 ≤ l.2) ∧
    order [pOne, pTwo] [(0, 2), (1, 5), (0, 1)] =
      (.ok (((settleTraceSpec [pOne, pTwo] [(0, 2), (1, 5), (0, 1)]).2).sum),
        (settleTraceSpec [pOne, pTwo] [(0, 2), (1, 5), (0, 1)]).1) :=
  ⟨by decide, order_partial_failure [pOne, pTwo] [(0, 2), (1, 5), (0, 1)] (by decide)⟩

/-- The order loop aborts with the invalid-quantity `ValueError` whenever
some line requests a non-positive quantity, whatever the starting total. -/
lemma orderGo_invalid (lines : List Line) : ∀ heap total,
    (∃ l ∈ lines, l.2 ≤ 0) →
    (orderGo heap total lines).1 = .error (.invalidValue invalidBuyMsg) := by
  induction lines with
  | nil => intro heap total h; simp at h
  | cons l rest ih =>
      intro heap total h
      obtain ⟨i, q⟩ := l
      by_cases hq : q ≤ 0
      · simp only [orderGo]
        rw [buy_nonpos (heap.getD i dummyProduct) q hq]
      · have hrest : ∃ l ∈ rest, l.2 ≤ 0 := by
          rcases h with ⟨l2, hl2, hle⟩
          rcases List.mem_cons.mp hl2 with heq | hmem
          · exact absurd (heq ▸ hle) (by simpa using hq)
          · exact ⟨l2, hmem, hle⟩
        rcases hbuy : buy (heap.getD i dummyProduct) q with ⟨res, p2⟩
        cases res with
        | ok t =>
            simp only [orderGo]
            rw [hbuy]
            exact ih _ _ hrest
        | error e =>
            cases e with
            | invalidValue m =>
                exact absurd (buy_invalid_imp _ _ _ _ hbuy) hq
            | outOfStock a b =>
                simp only [orderGo]
                rw [hbuy]
                exact ih _ _ hrest
            | maximumExceeded a b =>
                simp only [orderGo]
                rw [hbuy]
                exact ih _ _ hrest

/-- C4: if any line of the order requests a quantity below 1, the
invalid-quantity `ValueError` is not among the exceptions caught per line, so
the whole `order` call aborts with it instead of skipping the line. -/
theorem order_invalid_quantity_fatal (heap : List Product) (lines : List Line)
    (h : ∃ l ∈ lines, l.2 ≤ 0) :
    (order heap lines).1 = .error (.invalidValue invalidBuyMsg) := by
  simpa [order] using orderGo_invalid lines heap 0 h

/-- Witness for C4: an order whose second line requests quantity 0 aborts
with the invalid-quantity error. -/
theorem order_invalid_quantity_fatal_witness :
    (∃ l ∈ [((0 : Nat), (1 : Int)), (1, 0)], l.2 ≤ 0) ∧
    (order [pOne, pTwo] [(0, 1), (1, 0)]).1 = .error (.invalidValue invalidBuyMsg) :=
  ⟨by decide, order_invalid_quantity_fatal [pOne, pTwo] [(0, 1), (1, 0)] (by decide)⟩

/-- C8: the claim states that removal by name removes every entry whose name
matches, including duplicates.  The source pops from the list while iterating
over it, so after each removal the element that slides into the freed
position is skipped: on the catalog `[pA, pA]`, removing by the name A leaves
`[pA]` instead of the empty list the claim requires. -/
theorem remove_product_adjacent_duplicate :
    remove_product [pA, pA] pA = [pA] ∧ remove_product [pA, pA] pA ≠ [] := by
  have h : remove_product [pA, pA] pA = [pA] := by
    simp [remove_product, removeLoop, pA]
  exact ⟨h, by simp [h]⟩

/-- C9 counterexample: the claim states that without explicit
activate/deactivate calls the active flag tracks `stock > 0`, and in
particular that setting the stock to 0 and then back to a positive value
reactivates the product.  In the source the quantity setter only ever
deactivates: after `quantity = 0` then `quantity = 5` the product holds
stock 5 yet still reports inactive. -/
theorem setQuantity_no_reactivation :
    mkProduct "AMD Ryzen 57000X" 150 5 = .ok pAMD ∧
    (runOps pAMD [Op.setQ 0, Op.setQ 5]).quantity = 5 ∧
    (runOps pAMD [Op.setQ 0, Op.setQ 5]).active = false := by
  refine ⟨?_, ?_, ?_⟩
  · have h : ("AMD Ryzen 57000X".length = 0) = False := by decide
    norm_num [mkProduct, pAMD, h]
  · simp [runOps, runOp, setQuantity, pAMD]
  · simp [runOps, runOp, setQuantity, pAMD]

/-- One operation preserves the one-sided invariant: a product reporting
active has positive stock.  Every branch that writes the quantity also
deactivates when the written value is below 1, and no branch activates. -/
lemma runOp_active_inv (p : Product) (op : Op)
    (h : p.active = true → 0 < p.quantity) :
    (runOp p op).active = true → 0 < (runOp p op).quantity := by
  cases op with
  | setQ n =>
      rcases hv : p.variant with _ | _ | m
      · by_cases hn : n < 0
        · simpa [runOp, setQuantity, hv, hn] using h
        · by_cases hn1 : n < 1
          · simp [runOp, setQuantity, hv, hn, hn1]
          · simp only [runOp, setQuantity, hv]
            simp [hn, hn1]
            omega
      · simpa [runOp, setQuantity, hv] using h
      · by_cases hn : n < 0
        · simpa [runOp, setQuantity, hv, hn] using h
        · by_cases hn1 : n < 1
          · simp [runOp, setQuantity, hv, hn, hn1]
          · simp only [runOp, setQuantity, hv]
            simp [hn, hn1]
            omega
  | buyOp q =>
      rcases hv : p.variant with _ | _ | m
      · by_cases hq : q ≤ 0
        · simpa [runOp, buy, hv, hq] using h
        · by_cases hs : p.quantity - q < 0
          · simpa [runOp, buy, hv, hq, hs] using h
          · by_cases hs1 : p.quantity - q < 1
            · simp [runOp, buy, hv, hq, hs, hs1]
            · simp [runOp, buy, hv, hq, hs, hs1]
              omega
      · by_cases hq : q ≤ 0
        · simpa [runOp, buy, hv, hq] using h
        · simpa [runOp, buy, hv, hq] using h
      · by_cases hq : q ≤ 0
        · simpa [runOp, buy, hv, hq] using h
        · by_cases hm : m < q
          · simpa [runOp, buy, hv, hq, hm] using h
          · by_cases hs : p.quantity - q < 0
            · simpa [runOp, buy, hv, hq, hm, hs] using h
            · by_cases hs1 : p.quantity - q < 1
              · simp [runOp, buy, hv, hq, hm, hs, hs1]
              · simp [runOp, buy, hv, hq, hm, hs, hs1]
                omega

/-- A sequence of operations preserves the one-sided invariant. -/
lemma runOps_active_inv (ops : List Op) : ∀ p : Product,
    (p.active = true → 0 < p.quantity) →
    ((runOps p ops).active = true → 0 < (runOps p ops).quantity) := by
  induction ops with
  | nil => intro p h; simpa [runOps] using h
  | cons op rest ih =>
      intro p h
      have h1 := runOp_active_inv p op h
      simpa [runOps] using ih (runOp p op) (by simpa [runOps] using h1)

/-- A freshly constructed standard product satisfies the invariant: it is
active exactly when its stock is at least 1. -/
lemma mkProduct_active_inv (name : String) (price : ℚ) (q0 : Int)
    (p0 : Product) (h : mkProduct name price q0 = .ok p0) :
    p0.active = true → 0 < p0.quantity := by
  unfold mkProduct at h
  split_ifs at h with h1 h2 h3 h4 <;> cases h
  · simp
  · simp
    omega

/-- A freshly constructed quantity-limited product satisfies the same
invariant (its construction reuses the standard construction and only
changes the variant tag). -/
lemma mkLimitedProduct_active_inv (name : String) (price : ℚ) (q0 m : Int)
    (p0 : Product) (h : mkLimitedProduct name price q0 m = .ok p0) :
    p0.active = true → 0 < p0.quantity := by
  unfold mkLimitedProduct at h
  rcases hmk : mkProduct name price q0 with e | p1
  · rw [hmk] at h; simp at h
  · rw [hmk] at h
    split_ifs at h
    have hp1 := mkProduct_active_inv name price q0 p1 hmk
    simp only [Except.ok.injEq] at h
    subst h
    simpa using hp1

/-- C9 amended: for a stock-tracked product (standard or quantity-limited)
on which activate/deactivate is never called explicitly, the implication
holds in one direction only — after any sequence of stock-setter and
purchase operations, an active product has stock > 0.  The converse fails:
stock reaching 0 deactivates, but a later positive stock write does not
reactivate (see the counterexample). -/
theorem active_implies_positive_stock (name : String) (price : ℚ)
    (q0 m : Int) (ops : List Op) (p0 : Product)
    (h : mkProduct name price q0 = .ok p0 ∨
         mkLimitedProduct name price q0 m = .ok p0) :
    (runOps p0 ops).active = true → 0 < (runOps p0 ops).quantity := by
  rcases h with h | h
  · exact runOps_active_inv ops p0 (mkProduct_active_inv name price q0 p0 h)
  · exact runOps_active_inv ops p0 (mkLimitedProduct_active_inv name price q0 m p0 h)

/-- Witness for the amended C9: the constructed stock-5 product, after a
purchase of 2, is active with stock 3. -/
theorem active_implies_positive_stock_witness :
    (mkProduct "AMD Ryzen 57000X" 150 5 = .ok pAMD ∨
     mkLimitedProduct "AMD Ryzen 57000X" 150 5 1 = .ok pAMD) ∧
    ((runOps pAMD [Op.buyOp 2]).active = true → 0 < (runOps pAMD [Op.buyOp 2]).quantity) :=
  ⟨Or.inl (by
      have h : ("AMD Ryzen 57000X".length = 0) = False := by decide
      norm_num [mkProduct, pAMD, h]),
   active_implies_positive_stock "AMD Ryzen 57000X" 150 5 1 [Op.buyOp 2] pAMD
     (Or.inl (by
        have h : ("AMD Ryzen 57000X".length = 0) = False := by decide
        norm_num [mkProduct, pAMD, h]))⟩

/-- The merge loop: on success the shared list ends as the left list followed
by the whole right list; on a duplicate failure the right list splits as
`pre ++ p :: suf` where the loop appended exactly `pre` to the shared list
before the name of `p` collided with its contents. -/
lemma storeAddGo_spec (right : List Product) : ∀ acc : List Product,
    ((storeAddGo acc right).2 = none → (storeAddGo acc right).1 = acc ++ right) ∧
    ((storeAddGo acc right).2 ≠ none →
      ∃ pre p suf, right = pre ++ p :: suf ∧
        containsName (acc ++ pre) p.name = true ∧
        (storeAddGo acc right).1 = acc ++ pre) := by
  induction right with
  | nil => intro acc; simp [storeAddGo]
  | cons p rest ih =>
      intro acc
      by_cases hc : containsName acc p.name
      · refine ⟨fun hnone => ?_, fun _ => ?_⟩
        · simp [storeAddGo, hc] at hnone
        · exact ⟨[], p, rest, by simp, by simpa using hc, by simp [storeAddGo, hc]⟩
      · have ih2 := ih (acc ++ [p])
        refine ⟨fun hnone => ?_, fun hsome => ?_⟩
        · have := ih2.1 (by simpa [storeAddGo, hc] using hnone)
          simpa [storeAddGo, hc] using this
        · obtain ⟨pre, p1, suf, hsplit, hcol, hfin⟩ :=
            ih2.2 (by simpa [storeAddGo, hc] using hsome)
          exact ⟨p :: pre, p1, suf, by simp [hsplit],
            by simpa using hcol, by simpa [storeAddGo, hc] using hfin⟩

/-- C10: `Store.__add__` builds the new store around the very list object of
the left store, so the merge mutates the left operand.  On success the shared
list — the product list of the left store after the call and of the returned
store alike — is the old left list followed by every product of the right
store; on a duplicate-product failure it is the old left list followed by
exactly the right-store products that preceded the first collision, so a
failed merge does not leave the left store unchanged. -/
theorem store_add_mutates_left (left right : List Product) :
    ((store_add left right).2 = none →
      (store_add left right).1 = left ++ right) ∧
    ((store_add left right).2 ≠ none →
      ∃ pre p suf, right = pre ++ p :: suf ∧
        containsName (left ++ pre) p.name = true ∧
        (store_add left right).1 = left ++ pre) := by
  simpa [store_add] using storeAddGo_spec right left

/-- Witness for C10: merging `[pA]` with `[pB]` succeeds and leaves the
shared left list as `[pA, pB]`. -/
theorem store_add_mutates_left_witness :
    (store_add [pA] [pB]).2 = none ∧
    (store_add [pA] [pB]).1 = [pA] ++ [pB] :=
  ⟨by decide, (store_add_mutates_left [pA] [pB]).1 (by decide)⟩

end BestBuy
